import Mathlib

/-!
Verification of the ACD (Autonomous Continuous Development) metadata
convention repository: the SCIS comment-tag vocabulary, the runtime helper
functions of `src/ai_metadata.h`, and the extraction/validation engine the
specification describes (comment-block extractor, schema validator, record
store, dependency-graph analyzer, reporter).

C strings are modelled as `Option String`, with `none` standing for a NULL
pointer.  Machine integers do not occur in the verified code paths.
-/

namespace ACD

/-! ### Constants from `src/ai_metadata.h` -/

/-- `#define ACD_STATUS_IMPLEMENTED "IMPLEMENTED"` (ai_metadata.h line 87). -/
def ACD_STATUS_IMPLEMENTED : String := "IMPLEMENTED"

/-- `#define ACD_STATUS_PARTIAL "PARTIAL"` (ai_metadata.h line 88). -/
def ACD_STATUS_PARTIAL : String := "PARTIAL"

/-- `#define ACD_STATUS_NOT_STARTED "NOT_STARTED"` (ai_metadata.h line 89). -/
def ACD_STATUS_NOT_STARTED : String := "NOT_STARTED"

/-- `#define ACD_STATUS_FIXED "FIXED"` (ai_metadata.h line 90). -/
def ACD_STATUS_FIXED : String := "FIXED"

/-- `#define ACD_STATUS_DEPRECATED "DEPRECATED"` (ai_metadata.h line 91). -/
def ACD_STATUS_DEPRECATED : String := "DEPRECATED"

/-- `#define ACD_COMPLEXITY_LOW "LOW"` (ai_metadata.h line 94). -/
def ACD_COMPLEXITY_LOW : String := "LOW"

/-- `#define ACD_COMPLEXITY_MEDIUM "MEDIUM"` (ai_metadata.h line 95). -/
def ACD_COMPLEXITY_MEDIUM : String := "MEDIUM"

/-- `#define ACD_COMPLEXITY_HIGH "HIGH"` (ai_metadata.h line 96). -/
def ACD_COMPLEXITY_HIGH : String := "HIGH"

/-- `#define ACD_COMPLEXITY_CRITICAL "CRITICAL"` (ai_metadata.h line 97). -/
def ACD_COMPLEXITY_CRITICAL : String := "CRITICAL"

/-! ### Runtime API from `src/ai_metadata.h` -/

/-- `acd_is_production_ready` (ai_metadata.h lines 126-130):
```
static inline bool acd_is_production_ready(const char* status) {
    if (!status) return false;
    return (strcmp(status, ACD_STATUS_IMPLEMENTED) == 0) ||
           (strcmp(status, ACD_STATUS_FIXED) == 0);
}
```
NULL is modelled as `none`; `strcmp(x, y) == 0` as string equality. -/
def acd_is_production_ready : Option String → Bool
  | none => false
  | some status => (status == ACD_STATUS_IMPLEMENTED) || (status == ACD_STATUS_FIXED)

/-- `acd_is_high_risk` (ai_metadata.h lines 137-141):
```
static inline bool acd_is_high_risk(const char* complexity) {
    if (!complexity) return false;
    return (strcmp(complexity, ACD_COMPLEXITY_HIGH) == 0) ||
           (strcmp(complexity, ACD_COMPLEXITY_CRITICAL) == 0);
}
```
NULL is modelled as `none`; `strcmp(x, y) == 0` as string equality. -/
def acd_is_high_risk : Option String → Bool
  | none => false
  | some complexity => (complexity == ACD_COMPLEXITY_HIGH) || (complexity == ACD_COMPLEXITY_CRITICAL)

/-! ### Engine data model

The extraction/validation engine (`acd_parser.py`, `validate_acd.py`) is
referenced by the repository but its code is not among the given sources;
the definitions below are modelled from the specification's component
design (§3-§4). -/

/-- Modelled from the spec: the engine sources are missing; §3 "anchor: the
source location it documents (file path, line number, optional symbol name)". -/
structure Anchor where
  file : String
  line : Nat
  symbol : String
  deriving DecidableEq, Repr

/-- Modelled from the spec: the engine sources are missing; §3
`MetadataRecord` — one parsed comment block.  `status` and `complexity` are
optional (absence is legal); `phase` is free text, the empty string standing
for an absent phase; `extra_fields` maps unrecognized tag names to raw values. -/
structure MetadataRecord where
  anchor : Anchor
  phase : String
  status : Option String
  complexity : Option String
  note : Option String
  dependencies : List String
  commit : Option String
  commit_history : List String
  source_api_ref : Option String
  target_api_ref : Option String
  extra_fields : List (String × String)
  deriving DecidableEq, Repr

/-- Modelled from the spec: the closed status vocabulary of §3, built from
the header's constants. -/
def statusEnum : List String :=
  [ACD_STATUS_IMPLEMENTED, ACD_STATUS_PARTIAL, ACD_STATUS_NOT_STARTED,
   ACD_STATUS_FIXED, ACD_STATUS_DEPRECATED]

/-- Modelled from the spec: the closed complexity vocabulary of §3, built
from the header's constants. -/
def complexityEnum : List String :=
  [ACD_COMPLEXITY_LOW, ACD_COMPLEXITY_MEDIUM, ACD_COMPLEXITY_HIGH,
   ACD_COMPLEXITY_CRITICAL]

/-! ### Phase-level aggregates (Dependency Graph Analyzer step 3, §4.5) -/

/-- Modelled from the spec: the engine sources are missing; §3 PhaseNode —
the set of all records sharing one `phase` value. -/
def phaseRecords (recs : List MetadataRecord) (p : String) : List MetadataRecord :=
  recs.filter fun r => r.phase == p

/-- Modelled from the spec: the engine sources are missing; §4.5 step 3
"`production_ready` = true iff every record in that phase has `status` in
{IMPLEMENTED, FIXED}" — §4.5 step 4 notes the engine computes the same
predicate as the runtime helper, at the phase level. -/
def production_ready (recs : List MetadataRecord) (p : String) : Bool :=
  (phaseRecords recs p).all fun r => acd_is_production_ready r.status

/-- Modelled from the spec: the engine sources are missing; §4.5 step 3
"`high_risk` = true iff any record in that phase has `complexity` in
{HIGH, CRITICAL}". -/
def high_risk (recs : List MetadataRecord) (p : String) : Bool :=
  (phaseRecords recs p).any fun r => acd_is_high_risk r.complexity

/-- Modelled from the spec: the engine sources are missing; §4.5 step 4 "a
phase is reported `at_risk` when `high_risk` is true and `production_ready`
is false". -/
def at_risk (recs : List MetadataRecord) (p : String) : Bool :=
  high_risk recs p && !production_ready recs p

/-! ### Tag Extractor (§4.2) -/

/-- Modelled from the spec: the engine sources are missing; §6 the SCIS tag
vocabulary, case-sensitive. -/
def recognizedTags : List String :=
  ["AI_PHASE", "AI_STATUS", "AI_COMPLEXITY", "AI_NOTE", "AI_DEPENDENCIES",
   "AI_COMMIT", "AI_COMMIT_HISTORY", "SOURCE_API_REF", "TARGET_API_REF"]

/-- ASCII whitespace, for trimming tag names and values. -/
def isSpaceChar (c : Char) : Bool :=
  c == ' ' || c == '\t' || c == '\n' || c == '\r'

/-- Drop leading and trailing whitespace from a character list. -/
def trimChars (cs : List Char) : List Char :=
  ((cs.dropWhile isSpaceChar).reverse.dropWhile isSpaceChar).reverse

/-- Drop leading and trailing whitespace from a string. -/
def trimStr (s : String) : String :=
  ⟨trimChars s.data⟩

/-- Split a character list on a separator character; always returns at least
one (possibly empty) group. -/
def splitCharsOn (sep : Char) : List Char → List (List Char)
  | [] => [[]]
  | c :: rest =>
    if c == sep then [] :: splitCharsOn sep rest
    else
      match splitCharsOn sep rest with
      | [] => [[c]]
      | g :: gs => (c :: g) :: gs

/-- Split a string on a separator character. -/
def splitStrOn (sep : Char) (s : String) : List String :=
  (splitCharsOn sep s.data).map fun cs => ⟨cs⟩

/-- Join strings with a separator, inverse of splitting. -/
def joinOn (sep : String) : List String → String
  | [] => ""
  | [s] => s
  | s :: rest => s ++ sep ++ joinOn sep rest

/-- Modelled from the spec: the engine sources are missing; §4.2 tag grammar
"a recognized or unrecognized tag name, a colon, and a value running to end
of line (value may be empty, signaling not provided)".  A line with no colon
or an empty tag name is not a tag line. -/
def parseTagLine (line : String) : Option (String × String) :=
  match splitStrOn ':' line with
  | [] => none
  | [_] => none
  | name :: rest =>
    if trimStr name = "" then none
    else some (trimStr name, trimStr (joinOn ":" rest))

/-- Modelled from the spec: comma-separated list values (`AI_DEPENDENCIES`,
`AI_COMMIT_HISTORY`), §3. -/
def splitList (value : String) : List String :=
  ((splitStrOn ',' value).map trimStr).filter fun s => s != ""

/-- Modelled from the spec: the engine sources are missing; a record before
any tag has been applied (§3: absence of optional fields is legal, an empty
`phase` stands for an absent phase). -/
def emptyRecord (a : Anchor) : MetadataRecord :=
  { anchor := a, phase := "", status := none, complexity := none, note := none,
    dependencies := [], commit := none, commit_history := [], source_api_ref := none,
    target_api_ref := none, extra_fields := [] }

/-- Modelled from the spec: the engine sources are missing; §4.2 — a
recognized tag sets its field, an empty value signals "not provided", and an
unknown tag name is preserved in `extra_fields` rather than dropped. -/
def applyTag (r : MetadataRecord) (name value : String) : MetadataRecord :=
  if name = "AI_PHASE" then { r with phase := value }
  else if name = "AI_STATUS" then
    { r with status := if value = "" then none else some value }
  else if name = "AI_COMPLEXITY" then
    { r with complexity := if value = "" then none else some value }
  else if name = "AI_NOTE" then
    { r with note := if value = "" then none else some value }
  else if name = "AI_DEPENDENCIES" then { r with dependencies := splitList value }
  else if name = "AI_COMMIT" then
    { r with commit := if value = "" then none else some value }
  else if name = "AI_COMMIT_HISTORY" then { r with commit_history := splitList value }
  else if name = "SOURCE_API_REF" then
    { r with source_api_ref := if value = "" then none else some value }
  else if name = "TARGET_API_REF" then
    { r with target_api_ref := if value = "" then none else some value }
  else { r with extra_fields := r.extra_fields ++ [(name, value)] }

/-- Modelled from the spec: the engine sources are missing; §4.2 — a span
yields a candidate record iff it contains at least one line matching the tag
grammar; the tags are applied in order to an empty record. -/
def extractRecord (a : Anchor) (lines : List String) : Option MetadataRecord :=
  match lines.filterMap parseTagLine with
  | [] => none
  | t :: ts => some ((t :: ts).foldl (fun r tag => applyTag r tag.1 tag.2) (emptyRecord a))

/-! ### Schema Validator (§4.3) and Record Store (§4.4) -/

/-- Modelled from the spec: the engine sources are missing; the error
taxonomy of §7 (file-level `FileReadError` is I/O and out of the model). -/
inductive ValError where
  | InvalidStatus
  | InvalidComplexity
  | MissingPhase
  | DuplicateAnchor
  | DanglingDependency (source : String) (target : String)
  | SelfDependency (phase : String)
  | DependencyCycle (path : List String)
  deriving DecidableEq, Repr

/-- Modelled from the spec: the engine sources are missing; §4.3 schema
rules — `InvalidStatus`, `InvalidComplexity`, `MissingPhase`. -/
def schemaErrors (r : MetadataRecord) : List ValError :=
  (match r.status with
   | none => []
   | some s => if statusEnum.contains s then [] else [ValError.InvalidStatus]) ++
  (match r.complexity with
   | none => []
   | some c => if complexityEnum.contains c then [] else [ValError.InvalidComplexity]) ++
  (if r.phase = "" then [ValError.MissingPhase] else [])

/-- Modelled from the spec: §4.3 — validation annotates a record with an
error list; it does not mutate or drop fields. -/
def validate (r : MetadataRecord) : MetadataRecord × List ValError :=
  (r, schemaErrors r)

/-- Modelled from the spec: the engine sources are missing; §4.4/§5 — the
serialized insert of the Record Store; for each record, in insertion order,
whether its anchor was already present. -/
def insertAll (seen : List Anchor) : List MetadataRecord → List Bool
  | [] => []
  | r :: rs => decide (r.anchor ∈ seen) :: insertAll (r.anchor :: seen) rs

/-- Modelled from the spec: duplicate-anchor flags of a whole scan, starting
from an empty store. -/
def duplicateFlags (recs : List MetadataRecord) : List Bool :=
  insertAll [] recs

/-- Modelled from the spec: §4.3/§4.4 — every record is retained and
annotated; `DuplicateAnchor` is attached to the second and later occurrences
of an anchor. -/
def scanAnnotate (recs : List MetadataRecord) : List (MetadataRecord × List ValError) :=
  (recs.zip (duplicateFlags recs)).map fun rb =>
    (rb.1, schemaErrors rb.1 ++ if rb.2 then [ValError.DuplicateAnchor] else [])

/-! ### Dependency Graph Analyzer (§4.5) -/

/-- The analyzer only reads each record's `phase` and `dependencies`. -/
def phaseDeps (recs : List MetadataRecord) : List (String × List String) :=
  recs.map fun r => (r.phase, r.dependencies)

/-- Modelled from the spec: §4.5 — distinct `phase` values observed anywhere
in the Record Store (a record with no phase cannot participate, §4.3). -/
def declaredPhases (pd : List (String × List String)) : List String :=
  ((pd.filter fun x => x.1 != "").map fun x => x.1).dedup

/-- Modelled from the spec: §4.5 — edges are (phase → dependency) pairs
collected from every record's `dependencies` set. -/
def graphEdges (pd : List (String × List String)) : List (String × String) :=
  (pd.filter fun x => x.1 != "").flatMap fun x => x.2.map fun d => (x.1, d)

/-- Modelled from the spec: §4.5 step 1 — a dangling edge target is still
added as a node. -/
def allNodes (pd : List (String × List String)) : List String :=
  (declaredPhases pd ++ (graphEdges pd).map fun e => e.2).dedup

/-- Adjacency of one node, from the edge list. -/
def adjOf (pd : List (String × List String)) (u : String) : List String :=
  ((graphEdges pd).filter fun e => e.1 == u).map fun e => e.2

/-- Modelled from the spec: §4.5 step 1 — an edge target not present as any
record's `phase` is a `DanglingDependency` error attached to the source. -/
def danglingErrors (pd : List (String × List String)) : List ValError :=
  (graphEdges pd).filterMap fun e =>
    if (declaredPhases pd).contains e.2 then none
    else some (ValError.DanglingDependency e.1 e.2)

/-- Modelled from the spec: §4.5 — a self-loop is a `SelfDependency` error. -/
def selfErrors (pd : List (String × List String)) : List ValError :=
  (graphEdges pd).filterMap fun e =>
    if e.1 = e.2 then some (ValError.SelfDependency e.1) else none

/-- The cycle path reported for a back-edge to `u` while `path` is the
in-progress stack (most recent first): `u` followed by the stack segment
down to `u`, in traversal order. -/
def extractCycle (u : String) (path : List String) : List String :=
  u :: (path.takeWhile fun v => v != u).reverse

/-- Modelled from the spec: the engine sources are missing; §4.5 step 2 —
depth-first search with three-coloring (white: neither list; gray: on
`path`; black: on `black`); a back-edge to an in-progress node reports a
`DependencyCycle` naming the full cycle path.  `fuel` bounds the recursion
depth (an embedding artifact; any bound at least the total work suffices). -/
def visitMany (adj : String → List String) :
    Nat → List String → List String → List String → List ValError × List String
  | 0, _, black, _ => ([], black)
  | _ + 1, _, black, [] => ([], black)
  | fuel + 1, path, black, u :: rest =>
    if black.contains u then visitMany adj fuel path black rest
    else if path.contains u then
      let pr := visitMany adj fuel path black rest
      (ValError.DependencyCycle (extractCycle u path) :: pr.1, pr.2)
    else
      let pr1 := visitMany adj fuel (u :: path) black (adj u)
      let pr2 := visitMany adj fuel path (u :: pr1.2) rest
      (pr1.1 ++ pr2.1, pr2.2)

/-- Modelled from the spec: §4.5 step 2 — cycle detection over the full
graph, visiting every node. -/
def cycleErrors (pd : List (String × List String)) : List ValError :=
  let nodes := allNodes pd
  let work := nodes.length + (graphEdges pd).length + 1
  (visitMany (adjOf pd) (work * work) [] [] nodes).1

/-- Modelled from the spec: §4.5 — the graph-level error list (dangling
references, self-loops, cycles). -/
def analyzeGraph (pd : List (String × List String)) : List ValError :=
  danglingErrors pd ++ selfErrors pd ++ cycleErrors pd

/-- Graph-level errors of a record set. -/
def analyzerErrors (recs : List MetadataRecord) : List ValError :=
  analyzeGraph (phaseDeps recs)

/-! ### Reporter (§4.6) -/

/-- The report sort key: file path, then line number. -/
def reportKey (r : MetadataRecord) : String × Nat :=
  (r.anchor.file, r.anchor.line)

/-- Report order on keys: first by file path, then by line number (§4.6). -/
def keyLE (j k : String × Nat) : Prop :=
  j.1 < k.1 ∨ (j.1 = k.1 ∧ j.2 ≤ k.2)

/-- One line of the structured report. -/
def renderRecord (r : MetadataRecord) : String :=
  r.anchor.file ++ ":" ++ toString r.anchor.line ++ ":" ++ r.phase ++ ":" ++
    r.status.getD "unspecified" ++ ":" ++ r.complexity.getD "unspecified"

/-- A report entry: the `(file, line)` sort key paired with the rendered
report line for one record. -/
def reportItem (r : MetadataRecord) : (String × Nat) × String :=
  (reportKey r, renderRecord r)

/-- Modelled from the spec: §4.6 — total report order on entries: first by
file path, then by line number; entries sharing a `(file, line)` key
(retained duplicate-anchor records, §4.3) are tie-broken by their rendered
content, so the report is deterministic regardless of scan order. -/
def itemLE (x y : (String × Nat) × String) : Prop :=
  x.1.1 < y.1.1 ∨
    (x.1.1 = y.1.1 ∧ (x.1.2 < y.1.2 ∨ (x.1.2 = y.1.2 ∧ x.2 ≤ y.2)))

instance : DecidableRel itemLE := fun x y => by
  unfold itemLE; infer_instance

instance : IsTotal ((String × Nat) × String) itemLE :=
  ⟨fun x y => by
    unfold itemLE
    rcases lt_trichotomy x.1.1 y.1.1 with h | h | h
    · exact Or.inl (Or.inl h)
    · rcases lt_trichotomy x.1.2 y.1.2 with h2 | h2 | h2
      · exact Or.inl (Or.inr ⟨h, Or.inl h2⟩)
      · rcases le_total x.2 y.2 with h3 | h3
        · exact Or.inl (Or.inr ⟨h, Or.inr ⟨h2, h3⟩⟩)
        · exact Or.inr (Or.inr ⟨h.symm, Or.inr ⟨h2.symm, h3⟩⟩)
      · exact Or.inr (Or.inr ⟨h.symm, Or.inl h2⟩)
    · exact Or.inr (Or.inl h)⟩

instance : IsTrans ((String × Nat) × String) itemLE :=
  ⟨fun x y z hxy hyz => by
    unfold itemLE at hxy hyz ⊢
    rcases hxy with h1 | ⟨e1, h1⟩
    · rcases hyz with h2 | ⟨e2, _⟩
      · exact Or.inl (h1.trans h2)
      · exact Or.inl (e2 ▸ h1)
    · rcases hyz with h2 | ⟨e2, h2⟩
      · refine Or.inl ?_
        rw [e1]; exact h2
      · refine Or.inr ⟨e1.trans e2, ?_⟩
        rcases h1 with hl1 | ⟨el1, hs1⟩
        · rcases h2 with hl2 | ⟨el2, _⟩
          · exact Or.inl (hl1.trans hl2)
          · exact Or.inl (el2 ▸ hl1)
        · rcases h2 with hl2 | ⟨el2, hs2⟩
          · refine Or.inl ?_
            rw [el1]; exact hl2
          · exact Or.inr ⟨el1.trans el2, hs1.trans hs2⟩⟩

instance : IsAntisymm ((String × Nat) × String) itemLE :=
  ⟨fun x y hxy hyx => by
    rcases hxy with h1 | ⟨e1, h1⟩ <;> rcases hyx with h2 | ⟨e2, h2⟩
    · exact absurd (h1.trans h2) (lt_irrefl _)
    · exact absurd (e2 ▸ h1) (lt_irrefl _)
    · exact absurd (e1 ▸ h2) (lt_irrefl _)
    · rcases h1 with hl1 | ⟨el1, hs1⟩ <;> rcases h2 with hl2 | ⟨el2, hs2⟩
      · exact absurd (hl1.trans hl2) (lt_irrefl _)
      · exact absurd (el2 ▸ hl1) (lt_irrefl _)
      · exact absurd (el1 ▸ hl2) (lt_irrefl _)
      · exact Prod.ext (Prod.ext e1 el1) (le_antisymm hs1 hs2)⟩

/-- Modelled from the spec: §4.6 — the Reporter sorts the report entries of
the Record Store into the total report order, independently of scan order;
every retained record, duplicate anchors included, contributes an entry. -/
def sortItems (recs : List MetadataRecord) : List ((String × Nat) × String) :=
  List.insertionSort itemLE (recs.map reportItem)

/-- Modelled from the spec: the engine sources are missing; §4.6 — the
machine-readable report, one line per record in report order. -/
def structuredReport (recs : List MetadataRecord) : String :=
  String.intercalate "\n" ((sortItems recs).map fun x => x.2)

/-- A record with every optional field empty except the given ones, used to
build concrete scan inputs. -/
def mkRecord (file : String) (line : Nat) (phase : String)
    (status complexity : Option String) (deps : List String) : MetadataRecord :=
  { anchor := ⟨file, line, ""⟩, phase := phase, status := status,
    complexity := complexity, note := none, dependencies := deps,
    commit := none, commit_history := [], source_api_ref := none,
    target_api_ref := none, extra_fields := [] }

/-- The three-cycle scan input: phases A → B → C → A via `dependencies`. -/
def cycleDemo : List MetadataRecord :=
  [mkRecord "a.c" 1 "A" none none ["B"],
   mkRecord "b.c" 1 "B" none none ["C"],
   mkRecord "c.c" 1 "C" none none ["A"]]

/-- The acyclic chain scan input: phases A → B → C via `dependencies`. -/
def chainDemo : List MetadataRecord :=
  [mkRecord "a.c" 1 "A" none none ["B"],
   mkRecord "b.c" 1 "B" none none ["C"],
   mkRecord "c.c" 1 "C" none none []]

/-- A scan with two records claiming the same `(file, line)` anchor. -/
def dupDemo : List MetadataRecord :=
  [mkRecord "a.c" 5 "A" none none [],
   mkRecord "a.c" 5 "B" none none []]

end ACD

/-! ### Helper lemmas -/

/-- The helper's truth condition, spelled on the `Option String` model. -/
theorem ACD.isProductionReady_iff (o : Option String) :
    ACD.acd_is_production_ready o = true ↔ o = some "IMPLEMENTED" ∨ o = some "FIXED" := by
  cases o <;>
    simp [ACD.acd_is_production_ready, ACD.ACD_STATUS_IMPLEMENTED, ACD.ACD_STATUS_FIXED]

/-- The helper's truth condition, spelled on the `Option String` model. -/
theorem ACD.isHighRisk_iff (o : Option String) :
    ACD.acd_is_high_risk o = true ↔ o = some "HIGH" ∨ o = some "CRITICAL" := by
  cases o <;>
    simp [ACD.acd_is_high_risk, ACD.ACD_COMPLEXITY_HIGH, ACD.ACD_COMPLEXITY_CRITICAL]

/-- `production_ready` unfolded to a statement over the raw record list. -/
theorem ACD.production_ready_iff (recs : List ACD.MetadataRecord) (p : String) :
    ACD.production_ready recs p = true ↔
      ∀ r ∈ recs, r.phase = p → (r.status = some "IMPLEMENTED" ∨ r.status = some "FIXED") := by
  simp only [ACD.production_ready, ACD.phaseRecords, List.all_eq_true, List.mem_filter,
    ACD.isProductionReady_iff, beq_iff_eq, and_imp]

/-- `high_risk` unfolded to a statement over the raw record list. -/
theorem ACD.high_risk_iff (recs : List ACD.MetadataRecord) (p : String) :
    ACD.high_risk recs p = true ↔
      ∃ r ∈ recs, r.phase = p ∧ (r.complexity = some "HIGH" ∨ r.complexity = some "CRITICAL") := by
  simp [ACD.high_risk, ACD.phaseRecords, List.any_eq_true, List.mem_filter,
    ACD.isHighRisk_iff, and_assoc]

theorem ACD.length_insertAll (seen : List ACD.Anchor) (recs : List ACD.MetadataRecord) :
    (ACD.insertAll seen recs).length = recs.length := by
  induction recs generalizing seen with
  | nil => rfl
  | cons r rs ih => simp [ACD.insertAll, ih]

theorem ACD.insertAll_get (seen : List ACD.Anchor) (recs : List ACD.MetadataRecord)
    (i : Nat) (h : i < recs.length) (h2 : i < (ACD.insertAll seen recs).length) :
    (ACD.insertAll seen recs).get ⟨i, h2⟩ =
      decide ((recs.get ⟨i, h⟩).anchor ∈
        seen ++ (recs.map fun r => r.anchor).take i) := by
  induction recs generalizing seen i with
  | nil => exact absurd h (Nat.not_lt_zero i)
  | cons r rs ih =>
    cases i with
    | zero => simp [ACD.insertAll]
    | succ n =>
      have hn : n < rs.length := Nat.lt_of_succ_lt_succ h
      have hn2 : n < (ACD.insertAll (r.anchor :: seen) rs).length := by
        rw [ACD.length_insertAll]; exact hn
      have hstep : (ACD.insertAll seen (r :: rs)).get ⟨n + 1, h2⟩ =
          (ACD.insertAll (r.anchor :: seen) rs).get ⟨n, hn2⟩ := rfl
      have hgg : (r :: rs).get ⟨n + 1, h⟩ = rs.get ⟨n, hn⟩ := rfl
      rw [hstep, ih (r.anchor :: seen) n hn hn2, hgg]
      refine decide_eq_decide.mpr ?_
      simp only [List.map_cons, List.take_succ_cons, List.mem_append, List.mem_cons]
      tauto

theorem ACD.mem_take_map_anchor (recs : List ACD.MetadataRecord) (i : Nat) (a : ACD.Anchor) :
    (a ∈ (recs.map fun r => r.anchor).take i) ↔
      ∃ j, ∃ hj : j < recs.length, j < i ∧ (recs.get ⟨j, hj⟩).anchor = a := by
  rw [List.mem_iff_get]
  constructor
  · rintro ⟨⟨j, hjt⟩, hg⟩
    have hlen : ((recs.map fun r => r.anchor).take i).length = min i recs.length := by
      simp [List.length_take]
    have hji : j < i := lt_of_lt_of_le hjt (by rw [hlen]; exact Nat.min_le_left _ _)
    have hjl : j < recs.length := lt_of_lt_of_le hjt (by rw [hlen]; exact Nat.min_le_right _ _)
    refine ⟨j, hjl, hji, ?_⟩
    rw [← hg]
    simp [List.get_eq_getElem, List.getElem_take, List.getElem_map]
  · rintro ⟨j, hjl, hji, hg⟩
    have hjt : j < ((recs.map fun r => r.anchor).take i).length := by
      simp [List.length_take, Nat.lt_min]
      exact ⟨hji, hjl⟩
    refine ⟨⟨j, hjt⟩, ?_⟩
    rw [← hg]
    simp [List.get_eq_getElem, List.getElem_take, List.getElem_map]

theorem ACD.dupAnchor_not_schema (r : ACD.MetadataRecord) :
    ACD.ValError.DuplicateAnchor ∉ ACD.schemaErrors r := by
  intro hmem
  simp only [ACD.schemaErrors, List.mem_append] at hmem
  rcases hmem with (h | h) | h
  · cases hs : r.status <;> rw [hs] at h
    · simp at h
    · split at h <;> simp at h
  · cases hc : r.complexity <;> rw [hc] at h
    · simp at h
    · split at h <;> simp at h
  · split at h <;> simp at h

/-! ### Claim theorems -/

/-- C1: for every phase, `production_ready` is true iff every record in that
phase has status IMPLEMENTED or FIXED; a phase whose records all have status
NOT_STARTED is never production_ready, and a phase with one IMPLEMENTED
record and one PARTIAL record is not production_ready. -/
theorem acd_C1_production_ready_phase :
    (∀ (recs : List ACD.MetadataRecord) (p : String),
        ACD.production_ready recs p = true ↔
          ∀ r ∈ recs, r.phase = p →
            (r.status = some "IMPLEMENTED" ∨ r.status = some "FIXED"))
    ∧ ACD.production_ready
        [ACD.mkRecord "a.c" 10 "A" (some "NOT_STARTED") none [],
         ACD.mkRecord "a.c" 20 "A" (some "NOT_STARTED") none []] "A" = false
    ∧ ACD.production_ready
        [ACD.mkRecord "a.c" 10 "A" (some "IMPLEMENTED") none [],
         ACD.mkRecord "a.c" 20 "A" (some "PARTIAL") none []] "A" = false :=
  ⟨ACD.production_ready_iff, by decide, by decide⟩

/-- C1 witness: the characterization applied at a concrete one-record phase. -/
theorem acd_C1_witness :
    ACD.production_ready [ACD.mkRecord "a.c" 10 "A" (some "FIXED") none []] "A" = true :=
  (acd_C1_production_ready_phase.1
    [ACD.mkRecord "a.c" 10 "A" (some "FIXED") none []] "A").mpr (by decide)

/-- C2: for every phase, `at_risk` equals `high_risk && !production_ready`,
with `high_risk` true iff some record of the phase has complexity HIGH or
CRITICAL; a phase with a CRITICAL record that is not production-ready is
at_risk, and a phase whose records all have status FIXED is not at_risk
even with CRITICAL complexity. -/
theorem acd_C2_at_risk_phase :
    (∀ (recs : List ACD.MetadataRecord) (p : String),
        ACD.at_risk recs p = (ACD.high_risk recs p && !ACD.production_ready recs p))
    ∧ (∀ (recs : List ACD.MetadataRecord) (p : String),
        ACD.high_risk recs p = true ↔
          ∃ r ∈ recs, r.phase = p ∧
            (r.complexity = some "HIGH" ∨ r.complexity = some "CRITICAL"))
    ∧ (∀ (recs : List ACD.MetadataRecord) (p : String),
        (∃ r ∈ recs, r.phase = p ∧ r.complexity = some "CRITICAL") →
        ACD.production_ready recs p = false → ACD.at_risk recs p = true)
    ∧ (∀ (recs : List ACD.MetadataRecord) (p : String),
        (∀ r ∈ recs, r.phase = p → r.status = some "FIXED") →
        ACD.at_risk recs p = false) := by
  refine ⟨fun recs p => rfl, ACD.high_risk_iff, ?_, ?_⟩
  · intro recs p ⟨r, hr, hp, hc⟩ hnp
    have hh : ACD.high_risk recs p = true :=
      (ACD.high_risk_iff recs p).mpr ⟨r, hr, hp, Or.inr hc⟩
    simp [ACD.at_risk, hh, hnp]
  · intro recs p hfix
    have hp : ACD.production_ready recs p = true :=
      (ACD.production_ready_iff recs p).mpr fun r hr hph => Or.inr (hfix r hr hph)
    simp [ACD.at_risk, hp]

/-- C2 witness: a CRITICAL, PARTIAL record makes its phase at_risk. -/
theorem acd_C2_witness :
    ACD.at_risk [ACD.mkRecord "a.c" 10 "A" (some "PARTIAL") (some "CRITICAL") []] "A" = true :=
  acd_C2_at_risk_phase.2.2.1
    [ACD.mkRecord "a.c" 10 "A" (some "PARTIAL") (some "CRITICAL") []] "A"
    ⟨ACD.mkRecord "a.c" 10 "A" (some "PARTIAL") (some "CRITICAL") [],
      by decide, by decide, by decide⟩ (by decide)

/-- C3: for every non-null C string `s`, `acd_is_production_ready(s)` returns
true if and only if `s` equals `"IMPLEMENTED"` or `s` equals `"FIXED"`. -/
theorem acd_C3_production_ready_iff (s : String) :
    ACD.acd_is_production_ready (some s) = true ↔ s = "IMPLEMENTED" ∨ s = "FIXED" := by
  simp [ACD.acd_is_production_ready, ACD.ACD_STATUS_IMPLEMENTED, ACD.ACD_STATUS_FIXED]

/-- C4: for every non-null C string `s`, `acd_is_high_risk(s)` returns
true if and only if `s` equals `"HIGH"` or `s` equals `"CRITICAL"`. -/
theorem acd_C4_high_risk_iff (s : String) :
    ACD.acd_is_high_risk (some s) = true ↔ s = "HIGH" ∨ s = "CRITICAL" := by
  simp [ACD.acd_is_high_risk, ACD.ACD_COMPLEXITY_HIGH, ACD.ACD_COMPLEXITY_CRITICAL]

/-- C10: both runtime helpers are total on a NULL argument: each returns
`false` when passed NULL (modelled as `none`); in the source the explicit
`if (!p) return false;` guard runs before any dereference, which the
`none` branch of the embedding reflects. -/
theorem acd_C10_null_safe :
    ACD.acd_is_production_ready none = false ∧ ACD.acd_is_high_risk none = false :=
  ⟨rfl, rfl⟩

/-- C5: in the serialized Record Store insert, a record carries
`DuplicateAnchor` exactly when an earlier-inserted record has the same
`(file, line)` anchor — so for any insertion order the first occurrence of
an anchor is clean and every later occurrence is flagged. -/
theorem acd_C5_duplicate_anchor (recs : List ACD.MetadataRecord) (i : Nat) (h : i < recs.length)
    (h2 : i < (ACD.scanAnnotate recs).length) :
    ACD.ValError.DuplicateAnchor ∈ ((ACD.scanAnnotate recs).get ⟨i, h2⟩).2 ↔
      ∃ j, ∃ hj : j < recs.length, j < i ∧
        (recs.get ⟨j, hj⟩).anchor = (recs.get ⟨i, h⟩).anchor := by
  have hlenf : (ACD.duplicateFlags recs).length = recs.length :=
    ACD.length_insertAll [] recs
  have hif : i < (ACD.duplicateFlags recs).length := by rw [hlenf]; exact h
  have hget : (ACD.scanAnnotate recs).get ⟨i, h2⟩ =
      (recs.get ⟨i, h⟩,
        ACD.schemaErrors (recs.get ⟨i, h⟩) ++
          if (ACD.duplicateFlags recs).get ⟨i, hif⟩ then [ACD.ValError.DuplicateAnchor]
          else []) := by
    simp [ACD.scanAnnotate, List.get_eq_getElem, List.getElem_map, List.getElem_zip]
  have hflag : (ACD.duplicateFlags recs).get ⟨i, hif⟩ =
      decide ((recs.get ⟨i, h⟩).anchor ∈ (recs.map fun r => r.anchor).take i) := by
    have := ACD.insertAll_get [] recs i h hif
    simpa [ACD.duplicateFlags] using this
  rw [hget, List.mem_append, hflag]
  constructor
  · rintro (hs | hd)
    · exact absurd hs (ACD.dupAnchor_not_schema _)
    · by_cases hmem : (recs.get ⟨i, h⟩).anchor ∈ (recs.map fun r => r.anchor).take i
      · exact (ACD.mem_take_map_anchor recs i _).mp hmem
      · simp at hd
        exact absurd hd hmem
  · rintro ⟨j, hj, hji, ha⟩
    have hmem : (recs.get ⟨i, h⟩).anchor ∈ (recs.map fun r => r.anchor).take i :=
      (ACD.mem_take_map_anchor recs i _).mpr ⟨j, hj, hji, ha⟩
    right
    simp
    exact hmem

/-- C5 witness: the second record of a two-record scan with one shared
anchor is the one flagged. -/
theorem acd_C5_witness :
    ACD.ValError.DuplicateAnchor ∈ ((ACD.scanAnnotate ACD.dupDemo).get ⟨1, by decide⟩).2 :=
  (acd_C5_duplicate_anchor ACD.dupDemo 1 (by decide) (by decide)).mpr
    ⟨0, by decide, by decide, by decide⟩

/-- C7: a record extracted from a comment block whose `AI_STATUS` value lies
outside the closed status enum keeps the value verbatim in `status`, is
annotated with exactly one `InvalidStatus` error, and validation retains the
record unchanged rather than discarding it. -/
theorem acd_C7_invalid_status (a : ACD.Anchor) (lines : List String) (r : ACD.MetadataRecord) (v : String)
    (_hx : ACD.extractRecord a lines = some r)
    (hs : r.status = some v)
    (hv : ACD.statusEnum.contains v = false) :
    (ACD.schemaErrors r).count ACD.ValError.InvalidStatus = 1 ∧
      ACD.validate r = (r, ACD.schemaErrors r) := by
  refine ⟨?_, rfl⟩
  simp only [ACD.schemaErrors, hs, hv, List.count_append, Bool.false_eq_true, if_false]
  have h1 : List.count ACD.ValError.InvalidStatus [ACD.ValError.InvalidStatus] = 1 := by decide
  have h2 : List.count ACD.ValError.InvalidStatus
      (match r.complexity with
       | none => []
       | some c => if ACD.complexityEnum.contains c then []
                   else [ACD.ValError.InvalidComplexity]) = 0 := by
    cases r.complexity <;> (try split) <;> (try split) <;> simp_all
  have h3 : List.count ACD.ValError.InvalidStatus
      (if r.phase = "" then [ACD.ValError.MissingPhase] else []) = 0 := by
    split <;> simp
  rw [h1, h2, h3]

/-- C7 witness: the `AI_STATUS: BOGUS` block of §8, extracted and validated. -/
theorem acd_C7_witness :
    (ACD.schemaErrors (ACD.mkRecord "f.c" 1 "P" (some "BOGUS") none [])).count
        ACD.ValError.InvalidStatus = 1 :=
  (acd_C7_invalid_status ⟨"f.c", 1, ""⟩ ["AI_PHASE: P", "AI_STATUS: BOGUS"]
      (ACD.mkRecord "f.c" 1 "P" (some "BOGUS") none []) "BOGUS"
      (by decide) rfl rfl).1

/-- An unrecognized tag only extends `extra_fields`. -/
theorem ACD.applyTag_unknown (r : ACD.MetadataRecord) (name value : String)
    (hu : ACD.recognizedTags.contains name = false) :
    ACD.applyTag r name value =
      { r with extra_fields := r.extra_fields ++ [(name, value)] } := by
  have hm : name ∉ ACD.recognizedTags := by simpa using hu
  simp only [ACD.recognizedTags, List.mem_cons, List.not_mem_nil, or_false] at hm
  push_neg at hm
  obtain ⟨h1, h2, h3, h4, h5, h6, h7, h8, h9⟩ := hm
  simp [ACD.applyTag, h1, h2, h3, h4, h5, h6, h7, h8, h9]

/-- C8: appending a line carrying an unrecognized tag to a comment block
never makes extraction fail; the unknown tag is preserved in `extra_fields`,
and neither the record's schema-error list nor the dependency graph built
from any record set containing it changes. -/
theorem acd_C8_unknown_tags (a : ACD.Anchor) (lines : List String) (ln name value : String)
    (hp : ACD.parseTagLine ln = some (name, value))
    (hu : ACD.recognizedTags.contains name = false) :
    (ACD.extractRecord a (lines ++ [ln])).isSome = true ∧
    ∀ r, ACD.extractRecord a lines = some r →
      ACD.extractRecord a (lines ++ [ln]) =
          some { r with extra_fields := r.extra_fields ++ [(name, value)] } ∧
      ACD.schemaErrors { r with extra_fields := r.extra_fields ++ [(name, value)] }
          = ACD.schemaErrors r ∧
      ∀ rest : List ACD.MetadataRecord,
        ACD.analyzerErrors
            (rest ++ [{ r with extra_fields := r.extra_fields ++ [(name, value)] }])
          = ACD.analyzerErrors (rest ++ [r]) := by
  have hfm : (lines ++ [ln]).filterMap ACD.parseTagLine =
      lines.filterMap ACD.parseTagLine ++ [(name, value)] := by
    rw [List.filterMap_append]
    simp [hp]
  cases hl : lines.filterMap ACD.parseTagLine with
  | nil =>
    have hnone : ACD.extractRecord a lines = none := by
      simp [ACD.extractRecord, hl]
    have hx : ACD.extractRecord a (lines ++ [ln]) =
        some (ACD.applyTag (ACD.emptyRecord a) name value) := by
      rw [ACD.extractRecord, hfm, hl]
      simp
    refine ⟨by simp [hx], ?_⟩
    intro r hr
    rw [hnone] at hr
    exact absurd hr (by simp)
  | cons t ts =>
    have hsome : ACD.extractRecord a lines =
        some ((t :: ts).foldl (fun r tag => ACD.applyTag r tag.1 tag.2) (ACD.emptyRecord a)) := by
      simp [ACD.extractRecord, hl]
    have happ : ACD.extractRecord a (lines ++ [ln]) =
        some (ACD.applyTag
          ((t :: ts).foldl (fun r tag => ACD.applyTag r tag.1 tag.2) (ACD.emptyRecord a))
          name value) := by
      rw [ACD.extractRecord, hfm, hl]
      simp [List.foldl_append]
    refine ⟨by simp [happ], ?_⟩
    intro r hr
    have req : ((t :: ts).foldl (fun r tag => ACD.applyTag r tag.1 tag.2) (ACD.emptyRecord a)) = r := by
      rw [hsome] at hr
      exact Option.some.inj hr
    rw [req] at happ
    rw [ACD.applyTag_unknown r name value hu] at happ
    refine ⟨happ, rfl, ?_⟩
    intro rest
    simp [ACD.analyzerErrors, ACD.phaseDeps]

/-- C8 witness: the `AI_TIMEOUT` tag of the worked example, appended to a
one-tag block. -/
theorem acd_C8_witness :
    (ACD.extractRecord ⟨"f.c", 1, ""⟩ (["AI_PHASE: P"] ++ ["AI_TIMEOUT: 300"])).isSome = true :=
  (acd_C8_unknown_tags ⟨"f.c", 1, ""⟩ ["AI_PHASE: P"] "AI_TIMEOUT: 300" "AI_TIMEOUT" "300"
      (by decide) (by decide)).1

/-- C6: on the record set whose dependency edges form the three-cycle
A → B, B → C, C → A, the Dependency Graph Analyzer reports exactly one
`DependencyCycle` error, whose path names all three phases; on the acyclic
chain A → B → C it reports no error at all. -/
theorem acd_C6_cycle_detection :
    ACD.analyzerErrors ACD.cycleDemo = [ACD.ValError.DependencyCycle ["B", "C", "A"]]
    ∧ ACD.analyzerErrors ACD.chainDemo = [] :=
  ⟨by decide, by decide⟩

/-- C9: the structured report is a pure function of the record multiset —
any two scan orders of the same records, retained duplicate anchors
included, produce byte-identical reports — and it is ordered first by file
path then by line number, while containing exactly the entries of the
scanned records. -/
theorem acd_C9_report_determinism (l1 l2 : List ACD.MetadataRecord) (hp : l1.Perm l2) :
    ACD.structuredReport l1 = ACD.structuredReport l2 ∧
    (ACD.sortItems l1).Sorted ACD.itemLE ∧
    ((ACD.sortItems l1).map fun x => x.1).Sorted ACD.keyLE ∧
    (ACD.sortItems l1).Perm (l1.map ACD.reportItem) := by
  have hs1 : (ACD.sortItems l1).Sorted ACD.itemLE :=
    List.sorted_insertionSort ACD.itemLE (l1.map ACD.reportItem)
  have hs2 : (ACD.sortItems l2).Sorted ACD.itemLE :=
    List.sorted_insertionSort ACD.itemLE (l2.map ACD.reportItem)
  have hp1 : (ACD.sortItems l1).Perm (l1.map ACD.reportItem) :=
    List.perm_insertionSort ACD.itemLE (l1.map ACD.reportItem)
  have hp2 : (ACD.sortItems l2).Perm (l2.map ACD.reportItem) :=
    List.perm_insertionSort ACD.itemLE (l2.map ACD.reportItem)
  have hperm : (ACD.sortItems l1).Perm (ACD.sortItems l2) :=
    (hp1.trans (hp.map ACD.reportItem)).trans hp2.symm
  have heq : ACD.sortItems l1 = ACD.sortItems l2 :=
    List.eq_of_perm_of_sorted hperm hs1 hs2
  refine ⟨?_, hs1, ?_, hp1⟩
  · rw [ACD.structuredReport, ACD.structuredReport, heq]
  · refine List.pairwise_map.mpr (hs1.imp ?_)
    intro x y hxy
    rcases hxy with h | ⟨e, h⟩
    · exact Or.inl h
    · rcases h with h | ⟨e2, _⟩
      · exact Or.inr ⟨e, le_of_lt h⟩
      · exact Or.inr ⟨e, le_of_eq e2⟩

/-- C9 witness: two scan orders of the same three records, two of which
share a duplicate `(file, line)` anchor; the reports are identical. -/
theorem acd_C9_witness :
    ACD.structuredReport
        [ACD.mkRecord "b.c" 1 "C" none none [], ACD.mkRecord "a.c" 5 "B" none none [],
         ACD.mkRecord "a.c" 5 "A" none none []]
      = ACD.structuredReport
        [ACD.mkRecord "a.c" 5 "A" none none [], ACD.mkRecord "a.c" 5 "B" none none [],
         ACD.mkRecord "b.c" 1 "C" none none []] :=
  (acd_C9_report_determinism
      [ACD.mkRecord "b.c" 1 "C" none none [], ACD.mkRecord "a.c" 5 "B" none none [],
       ACD.mkRecord "a.c" 5 "A" none none []]
      [ACD.mkRecord "a.c" 5 "A" none none [], ACD.mkRecord "a.c" 5 "B" none none [],
       ACD.mkRecord "b.c" 1 "C" none none []]
      (by decide)).1

/-- C3 witness: the characterization applied at the concrete status FIXED. -/
theorem acd_C3_witness : ACD.acd_is_production_ready (some "FIXED") = true :=
  (acd_C3_production_ready_iff "FIXED").mpr (Or.inr rfl)

/-- C4 witness: the characterization applied at the concrete complexity CRITICAL. -/
theorem acd_C4_witness : ACD.acd_is_high_risk (some "CRITICAL") = true :=
  (acd_C4_high_risk_iff "CRITICAL").mpr (Or.inr rfl)
